import Mathlib

/-!
Shallow embedding of `src/rust/build.rs`, the cargo build script that reads a
`config.rust` file generated by autoconf and prints linker directives for a
Rust package. Strings are Lean `String`s; the filesystem is abstracted as a
predicate on paths; printed directives are collected into lists in emission
order; panics and typed IO errors become `Option`/`Except` results.
-/

namespace TorBuild

/-- One cargo directive line printed by the build script. `linkStatic name`
stands for the line `cargo:rustc-link-lib=static=name`, `linkLib name` for
`cargo:rustc-link-lib=name`, and `searchNative p` for
`cargo:rustc-link-search=native=p`. -/
inductive Directive where
  | linkStatic (name : String)
  | linkLib (name : String)
  | searchNative (path : String)
deriving DecidableEq, Repr

/-- Render a directive as the exact text printed with println. -/
def Directive.render : Directive → String
  | .linkStatic s => "cargo:rustc-link-lib=static=" ++ s
  | .linkLib s => "cargo:rustc-link-lib=" ++ s
  | .searchNative s => "cargo:rustc-link-search=native=" ++ s

/-- Model of Rust `str::trim` on the character list: remove leading and
trailing whitespace (whitespace as in `Char.isWhitespace`). -/
def trimChars (cs : List Char) : List Char :=
  ((cs.dropWhile Char.isWhitespace).reverse.dropWhile Char.isWhitespace).reverse

/-- Model of Rust `str::trim`. -/
def trimStr (s : String) : String :=
  ⟨trimChars s.data⟩

/-- Check that the second character list is an initial segment of the
first. -/
def beginsWith : List Char → List Char → Bool
  | _, [] => true
  | [], _ :: _ => false
  | c :: cs, p :: ps => c == p && beginsWith cs ps

/-- Model of Rust `str::starts_with` on string patterns. -/
def startsWithStr (s pat : String) : Bool :=
  beginsWith s.data pat.data

/-- Model of the byte slice `&s[n..]` for the uses in this script, where the
first `n` characters are always ASCII, so byte and character counts agree. -/
def dropChars (s : String) (n : Nat) : String :=
  ⟨s.data.drop n⟩

/-- The settings map wrapped by `struct Config(HashMap<String,String>)`,
modelled as an association list. Insertion prepends the new binding and lookup
returns the first match, so a later `insert` of the same key shadows an
earlier one, matching `HashMap::insert` overwrite semantics observationally. -/
structure Config where
  map : List (String × String)
deriving DecidableEq, Repr

/-- Overwriting insertion, modelling `map.insert(var, val)`. -/
def Config.insert (c : Config) (k v : String) : Config :=
  ⟨(k, v) :: c.map⟩

/-- Lookup, modelling `self.0.get(key)`. The source immediately unwraps the
result (panicking when the key is absent), so callers treat `none` as the
panic. -/
def Config.get (c : Config) (k : String) : Option String :=
  (c.map.find? (fun p => p.1 == k)).map (fun p => p.2)

/-- Split a line at the first occurrence of the equals character, modelling
`s.find("=")` followed by `split_at(idx)` and `&eq_val[1..]`: the result is
the characters strictly before the first one and strictly after it, or `none`
when the line has no equals character. -/
def splitEq : List Char → Option (List Char × List Char)
  | [] => none
  | c :: cs =>
    if c = '=' then some ([], cs)
    else (splitEq cs).map (fun p => (c :: p.1, p.2))

/-- The typed error raised by `Config::load` on a line without an equals
sign (`io::ErrorKind::InvalidData`, "missing ="). -/
inductive LoadError where
  | invalidData
deriving DecidableEq, Repr

/-- The line-processing for-loop body of `Config::load`: skip a line whose
trimmed form starts with a hash or is empty, fail with `InvalidData` when a
kept line has no equals sign, otherwise insert the verbatim key/value split at
the first equals sign. -/
def loadLines : List String → Config → Except LoadError Config
  | [], c => .ok c
  | s :: rest, c =>
    if startsWithStr (trimStr s) "#" || trimStr s == "" then
      loadLines rest c
    else
      match splitEq s.data with
      | none => .error .invalidData
      | some (var, val) => loadLines rest (c.insert ⟨var⟩ ⟨val⟩)

/-- `Config::load`, with the file contents supplied as its list of lines. -/
def Config.load (lines : List String) : Except LoadError Config :=
  loadLines lines ⟨[]⟩

/-- `Config::component`: the single static-library directive it prints. -/
def Config.component (_ : Config) (s : String) : List Directive :=
  [.linkStatic s]

/-- `Config::dependency`: the single external-library directive it prints. -/
def Config.dependency (_ : Config) (s : String) : List Directive :=
  [.linkLib s]

/-- `Config::link_path`: the single absolute search-path directive it
prints. -/
def Config.link_path (_ : Config) (s : String) : List Directive :=
  [.searchNative s]

/-- `Config::link_relpath`: looks up `BUILDDIR` (panicking, hence `none`,
when absent) and prints one search-path directive for
`builddir ++ "/" ++ s`. -/
def Config.link_relpath (c : Config) (s : String) : Option (List Directive) :=
  (c.get "BUILDDIR").map (fun builddir => [.searchNative (builddir ++ "/" ++ s)])

/-- Model of Rust `str::split_whitespace` on the character list: maximal runs
of non-whitespace characters become the tokens, in order. The first argument
is the remaining input, the second the current token's characters in reverse
order. -/
def splitWsAux : List Char → List Char → List String
  | [], acc => if acc.isEmpty then [] else [⟨acc.reverse⟩]
  | c :: cs, acc =>
    if c.isWhitespace then
      if acc.isEmpty then splitWsAux cs [] else ⟨acc.reverse⟩ :: splitWsAux cs []
    else
      splitWsAux cs (c :: acc)

/-- Model of Rust `str::split_whitespace`: split on runs of whitespace,
producing no empty tokens for leading, trailing or repeated whitespace. -/
def splitWhitespace (s : String) : List String :=
  splitWsAux s.data []

/-- The token scan of `Config::from_cflags`, carrying the two mutable flags
`next_is_lib` and `next_is_path` and collecting the printed directives in
order. A pending flag consumes the next token verbatim; otherwise exact `-l` /
`-L` set a flag, longer `-L...` / `-l...` tokens emit with the two-character
prefix stripped (`&ent[2..]`, two ASCII bytes, hence `String.drop 2`), and any
other token is ignored. -/
def scanCflags : List String → Bool → Bool → List Directive
  | [], _, _ => []
  | ent :: rest, next_is_lib, next_is_path =>
    if next_is_lib then
      .linkLib ent :: scanCflags rest false next_is_path
    else if next_is_path then
      .searchNative ent :: scanCflags rest next_is_lib false
    else if ent == "-l" then
      scanCflags rest true next_is_path
    else if ent == "-L" then
      scanCflags rest next_is_lib true
    else if startsWithStr ent "-L" then
      .searchNative (dropChars ent 2) :: scanCflags rest next_is_lib next_is_path
    else if startsWithStr ent "-l" then
      .linkLib (dropChars ent 2) :: scanCflags rest next_is_lib next_is_path
    else
      scanCflags rest next_is_lib next_is_path

/-- `Config::from_cflags`: look up the key `s` (panicking, hence `none`, when
absent), split its value on whitespace and scan the tokens with both flags
initially clear. -/
def Config.from_cflags (c : Config) (s : String) : Option (List Directive) :=
  (c.get s).map (fun v => scanCflags (splitWhitespace v) false false)

/-- The typed error raised by `find_cfg` when the root is reached
(`io::ErrorKind::NotFound`, "No config.rust"). -/
inductive FindError where
  | notFound
deriving DecidableEq, Repr

/-- Upward search of `find_cfg`. The filesystem is abstracted as the
predicate `fsExists`; a directory is its list of path components below the
filesystem root, so `PathBuf::pop` returning false corresponds to the empty
list. Each loop iteration pushes `config.rust`, probes for the file, pops it
again, and either steps to the parent directory or fails with `NotFound`. -/
def find_cfg (fsExists : List String → Bool) (path : List String) :
    Except FindError (List String) :=
  if fsExists (path ++ ["config.rust"]) then
    .ok (path ++ ["config.rust"])
  else if path.isEmpty then
    .error .notFound
  else
    find_cfg fsExists path.dropLast
termination_by path.length
decreasing_by
  cases path with
  | nil => simp_all
  | cons a as => simp [List.length_dropLast]

/-- Number of existence probes `find_cfg` performs from a given starting
directory: one per visited ancestor level. -/
def find_cfg_probes (fsExists : List String → Bool) (path : List String) : Nat :=
  if fsExists (path ++ ["config.rust"]) then
    1
  else if path.isEmpty then
    1
  else
    1 + find_cfg_probes fsExists path.dropLast
termination_by path.length
decreasing_by
  cases path with
  | nil => simp_all
  | cons a as => simp [List.length_dropLast]

/-- One call performed by the `"crypto"` branch of `main`, in the order the
source lists them. -/
inductive BuildStep where
  | from_cflags (key : String)
  | link_relpath (path : String)
  | component (name : String)
deriving DecidableEq, Repr

/-- The exact call sequence of the `"crypto"` branch of `main`. -/
def cryptoSteps : List BuildStep :=
  [.from_cflags "TOR_LDFLAGS_zlib",
   .from_cflags "TOR_LDFLAGS_openssl",
   .from_cflags "TOR_LDFLAGS_libevent",
   .link_relpath "src/lib",
   .link_relpath "src/common",
   .link_relpath "src/ext/keccak-tiny",
   .link_relpath "src/ext/ed25519/ref10",
   .link_relpath "src/ext/ed25519/donna",
   .link_relpath "src/trunnel",
   .component "tor-crypt-ops-testing",
   .component "or-testing",
   .component "tor-log",
   .component "tor-lock",
   .component "tor-fdio",
   .component "tor-container-testing",
   .component "tor-smartlist-core-testing",
   .component "tor-string-testing",
   .component "tor-malloc",
   .component "tor-wallclock",
   .component "tor-err-testing",
   .component "or-event-testing",
   .component "tor-intmath-testing",
   .component "tor-ctime-testing",
   .component "curve25519_donna",
   .component "keccak-tiny",
   .component "ed25519_ref10",
   .component "ed25519_donna",
   .component "or-trunnel-testing",
   .from_cflags "TOR_ZLIB_LIBS",
   .from_cflags "TOR_LIB_MATH",
   .from_cflags "TOR_OPENSSL_LIBS",
   .from_cflags "TOR_LIBEVENT_LIBS",
   .from_cflags "TOR_LIB_WS32",
   .from_cflags "TOR_LIB_GDI",
   .from_cflags "TOR_LIB_USERENV",
   .from_cflags "CURVE25519_LIBS",
   .from_cflags "TOR_LZMA_LIBS",
   .from_cflags "TOR_ZSTD_LIBS",
   .from_cflags "LIBS"]

/-- How `main` can abort: a load failure, a panicking key lookup inside a
directive-emitting call, or an unrecognized package name. -/
inductive MainError where
  | loadError (e : LoadError)
  | missingKey
  | unknownPackage (package : String)
deriving DecidableEq, Repr

/-- Run one step of a dispatch branch; `none` models the panic of the
unwrapped key lookup. -/
def runStep (c : Config) : BuildStep → Option (List Directive)
  | .from_cflags k => c.from_cflags k
  | .link_relpath p => c.link_relpath p
  | .component n => some (c.component n)

/-- Run a branch's steps in order, collecting the directives printed before a
panic (if any) aborts the run. -/
def runSteps (c : Config) : List BuildStep → List Directive × Option MainError
  | [] => ([], none)
  | st :: rest =>
    match runStep c st with
    | none => ([], some .missingKey)
    | some ds =>
      let r := runSteps c rest
      (ds ++ r.1, r.2)

/-- The whole invocation `main`, with the config file's lines and the
`CARGO_PKG_NAME` value as inputs: load the settings (aborting with nothing
printed on failure), then dispatch on the package name. The result is the
list of directives printed, paired with the abort reason when the invocation
failed. -/
def main (lines : List String) (package : String) :
    List Directive × Option MainError :=
  match Config.load lines with
  | .error e => ([], some (.loadError e))
  | .ok cfg =>
    if package == "crypto" then
      runSteps cfg cryptoSteps
    else
      ([], some (.unknownPackage package))

/-- The key/value pair a single line contributes to the map: `none` for a
blank or comment line (also for a malformed line, which instead aborts the
whole load). Used to state which binding the loaded map holds for a key. -/
def lineKV (s : String) : Option (String × String) :=
  if startsWithStr (trimStr s) "#" || trimStr s == "" then
    none
  else
    match splitEq s.data with
    | none => none
    | some (var, val) => some (⟨var⟩, ⟨val⟩)

/-- The value of the last line binding the key `k`, if any. -/
def lastBinding : List String → String → Option String
  | [], _ => none
  | s :: rest, k =>
    match lastBinding rest k with
    | some v => some v
    | none =>
      match lineKV s with
      | some (k2, v) => if k2 == k then some v else none
      | none => none

/-! Helper lemmas shared by the claim theorems. -/

/-- When the line contains an equals character, `splitEq` yields the
characters strictly before the first one and strictly after it. -/
theorem splitEq_of_mem (cs : List Char) (h : '=' ∈ cs) :
    splitEq cs =
      some (cs.takeWhile (fun ch => ch != '='),
            (cs.dropWhile (fun ch => ch != '=')).tail) := by
  induction cs with
  | nil => cases h
  | cons c cs ih =>
    by_cases hc : c = '='
    · subst hc
      simp [splitEq, List.takeWhile, List.dropWhile]
    · have hmem : '=' ∈ cs := by
        rcases List.mem_cons.mp h with h1 | h1
        · exact absurd h1.symm hc
        · exact h1
      have hb : (c != '=') = true := by simpa [bne_iff_ne] using hc
      simp [splitEq, ih hmem, List.takeWhile, List.dropWhile, hc, hb]

/-- A line without an equals character makes `splitEq` fail. -/
theorem splitEq_eq_none (cs : List Char) (h : '=' ∉ cs) : splitEq cs = none := by
  induction cs with
  | nil => rfl
  | cons c cs ih =>
    rw [List.mem_cons, not_or] at h
    have hc : ¬ c = '=' := fun e => h.1 e.symm
    simp [splitEq, hc, ih h.2]

/-- Lookup after insertion: the inserted binding shadows older ones for its
key and leaves every other key unchanged. -/
theorem get_insert (c : Config) (k v k2 : String) :
    (c.insert k v).get k2 = if k == k2 then some v else c.get k2 := by
  by_cases h : (k == k2) = true <;>
    simp [Config.insert, Config.get, List.find?, h]

/-- A malformed line anywhere in the input aborts the whole line loop with
`InvalidData`, whatever map has been accumulated so far. -/
theorem loadLines_error_of_malformed (lines : List String) (c : Config)
    (h : ∃ s ∈ lines, startsWithStr (trimStr s) "#" = false ∧ trimStr s ≠ "" ∧
      '=' ∉ s.data) :
    loadLines lines c = .error .invalidData := by
  induction lines generalizing c with
  | nil => rcases h with ⟨s, hs, _⟩; cases hs
  | cons s rest ih =>
    rcases h with ⟨t, ht, h1, h2, h3⟩
    rcases List.mem_cons.mp ht with rfl | htr
    · have hcond : (startsWithStr (trimStr t) "#" || trimStr t == "") = false := by
        simp [h1, h2]
      simp [loadLines, hcond, splitEq_eq_none t.data h3]
    · by_cases hcond : (startsWithStr (trimStr s) "#" || trimStr s == "") = true
      · simp only [loadLines, hcond, if_true]
        exact ih c ⟨t, htr, h1, h2, h3⟩
      · cases hsp : splitEq s.data with
        | none => simp [loadLines, hcond, hsp]
        | some p =>
          simp [loadLines, hcond, hsp]
          exact ih _ ⟨t, htr, h1, h2, h3⟩

/-- When the line loop succeeds, a key's final value is the one bound by the
last line that binds it, falling back to the accumulated map. -/
theorem loadLines_get (lines : List String) (c cfg : Config) (k : String)
    (h : loadLines lines c = .ok cfg) :
    cfg.get k =
      match lastBinding lines k with
      | some v => some v
      | none => c.get k := by
  induction lines generalizing c with
  | nil =>
    simp [loadLines] at h
    subst h
    simp [lastBinding]
  | cons s rest ih =>
    by_cases hc : (startsWithStr (trimStr s) "#" || trimStr s == "") = true
    · simp only [loadLines, hc, if_true] at h
      have hkv : lineKV s = none := by simp [lineKV, hc]
      have hrec := ih c h
      simp only [lastBinding, hkv]
      cases hlb : lastBinding rest k with
      | some v => simpa [hlb] using hrec
      | none => simpa [hlb] using hrec
    · cases hsp : splitEq s.data with
      | none =>
        rw [loadLines] at h
        simp [hc, hsp] at h
      | some p =>
        obtain ⟨var, val⟩ := p
        rw [loadLines] at h
        simp only [hc, if_false, hsp] at h
        have hrec := ih _ h
        rw [get_insert] at hrec
        have hkv : lineKV s = some (⟨var⟩, ⟨val⟩) := by simp [lineKV, hc, hsp]
        simp only [lastBinding, hkv]
        cases hlb : lastBinding rest k with
        | some v => simpa [hlb] using hrec
        | none =>
          by_cases hk : ((⟨var⟩ : String) == k) = true
          · simpa [hlb, hk] using hrec
          · simpa [hlb, hk] using hrec

/-! Claim theorems. -/

/-- Claim C1: on the settings value
`"-lfoo -L/usr/lib -lbar baz -L /opt/lib"`, `from_cflags` emits, in order, a
dependency directive for `foo`, an absolute search-path directive for
`/usr/lib`, a dependency directive for `bar`, nothing for `baz`, and a
search-path directive for `/opt/lib` (via the standalone `-L` and its
argument), and nothing else. -/
theorem from_cflags_literal_sequence :
    Config.from_cflags ⟨[("TOR_OPENSSL_LIBS", "-lfoo -L/usr/lib -lbar baz -L /opt/lib")]⟩
        "TOR_OPENSSL_LIBS" =
      some [.linkLib "foo", .searchNative "/usr/lib", .linkLib "bar",
            .searchNative "/opt/lib"] := by
  rfl

/-- Claim C2: a line that is not blank after trimming, does not start with a
hash after trimming, and contains an equals character makes `load` insert the
entry whose key is the untrimmed text strictly before the first equals sign
and whose value is the untrimmed text strictly after it, verbatim. -/
theorem load_inserts_verbatim_split (s : String) (rest : List String) (c : Config)
    (h1 : startsWithStr (trimStr s) "#" = false) (h2 : trimStr s ≠ "")
    (h3 : '=' ∈ s.data) :
    loadLines (s :: rest) c =
      loadLines rest
        (c.insert ⟨s.data.takeWhile (fun ch => ch != '=')⟩
          ⟨(s.data.dropWhile (fun ch => ch != '=')).tail⟩) := by
  have hcond : (startsWithStr (trimStr s) "#" || trimStr s == "") = false := by
    simp [h1, h2]
  simp [loadLines, hcond, splitEq_of_mem s.data h3]

/-- Witness for claim C2 at the line `" K =a=b"`: the key is `" K "` and the
value `"a=b"`, both verbatim, the value keeping its second equals sign. -/
theorem load_inserts_verbatim_split_witness :
    startsWithStr (trimStr " K =a=b") "#" = false ∧ trimStr " K =a=b" ≠ "" ∧
      '=' ∈ " K =a=b".data ∧
      loadLines [" K =a=b"] ⟨[]⟩ =
        loadLines []
          (Config.insert ⟨[]⟩ ⟨" K =a=b".data.takeWhile (fun ch => ch != '=')⟩
            ⟨(" K =a=b".data.dropWhile (fun ch => ch != '=')).tail⟩) :=
  ⟨by decide, by decide, by decide,
    load_inserts_verbatim_split " K =a=b" [] ⟨[]⟩ (by decide) (by decide) (by decide)⟩

/-- Claim C3: when no ancestor directory of the start point contains a file
named `config.rust`, the upward search terminates with `NotFound`, probing
each ancestor level at most once (at most `depth + 1` probes in total). -/
theorem find_cfg_no_file_not_found (fsExists : List String → Bool)
    (path : List String)
    (h : ∀ n, fsExists (path.take n ++ ["config.rust"]) = false) :
    find_cfg fsExists path = .error .notFound ∧
      find_cfg_probes fsExists path ≤ path.length + 1 := by
  induction path using List.reverseRecOn with
  | nil =>
    have h0 := h 0
    simp only [List.take_nil, List.nil_append] at h0
    rw [find_cfg, find_cfg_probes]
    simp [h0]
  | append_singleton xs x ih =>
    have htop := h (xs.length + 1)
    rw [List.take_of_length_le (by simp)] at htop
    simp only [List.append_assoc, List.cons_append, List.nil_append] at htop
    have hxs : ∀ n, fsExists (xs.take n ++ ["config.rust"]) = false := by
      intro n
      by_cases hn : n ≤ xs.length
      · have := h n
        rwa [List.take_append_of_le_length hn] at this
      · have hx : xs.take n = xs := List.take_of_length_le (by omega)
        have := h xs.length
        rwa [List.take_append_of_le_length (le_refl _), List.take_length, ← hx] at this
    obtain ⟨ih1, ih2⟩ := ih hxs
    constructor
    · rw [find_cfg]
      simp [htop, List.dropLast_concat, ih1]
    · rw [find_cfg_probes]
      simp [htop, List.dropLast_concat]
      omega

/-- Witness for claim C3: with an empty filesystem and a start directory
three levels deep, the search fails with `NotFound` in at most four
probes. -/
theorem find_cfg_no_file_not_found_witness :
    find_cfg (fun _ => false) ["home", "user", "out"] = .error .notFound ∧
      find_cfg_probes (fun _ => false) ["home", "user", "out"] ≤ 4 :=
  find_cfg_no_file_not_found (fun _ => false) ["home", "user", "out"] (fun _ => rfl)

/-- Claim C4: an input containing some line that is not blank after trimming,
does not start with a hash after trimming, and has no equals character makes
`load` fail with `InvalidData`, wherever that line occurs. -/
theorem load_missing_separator_invalid_data (lines : List String)
    (h : ∃ s ∈ lines, startsWithStr (trimStr s) "#" = false ∧ trimStr s ≠ "" ∧
      '=' ∉ s.data) :
    Config.load lines = .error .invalidData :=
  loadLines_error_of_malformed lines ⟨[]⟩ h

/-- Witness for claim C4: a malformed line in the middle of an otherwise
well-formed file. -/
theorem load_missing_separator_invalid_data_witness :
    (∃ s ∈ ["A=1", "oops", "B=2"], startsWithStr (trimStr s) "#" = false ∧
      trimStr s ≠ "" ∧ '=' ∉ s.data) ∧
      Config.load ["A=1", "oops", "B=2"] = .error .invalidData :=
  ⟨by decide, load_missing_separator_invalid_data ["A=1", "oops", "B=2"] (by decide)⟩

/-- Claim C5: on the settings value `"-lfoo -L"`, `from_cflags` emits exactly
one directive, a dependency directive for `foo`; the trailing standalone `-L`
emits nothing and causes no error. -/
theorem from_cflags_trailing_switch_only_dep :
    Config.from_cflags ⟨[("LIBS", "-lfoo -L")]⟩ "LIBS" = some [.linkLib "foo"] := by
  rfl

/-- Claim C6: with `BUILDDIR=/build/tor` in the settings,
`link_relpath "src/lib"` emits one search-path directive for exactly
`/build/tor/src/lib` (value, single slash, suffix, no normalization); when
`BUILDDIR` is absent the fatal lookup aborts the call and nothing is
emitted. -/
theorem link_relpath_composes_builddir (c : Config)
    (h : c.get "BUILDDIR" = none) :
    Config.link_relpath ⟨[("BUILDDIR", "/build/tor")]⟩ "src/lib" =
        some [.searchNative "/build/tor/src/lib"] ∧
      c.link_relpath "src/lib" = none :=
  ⟨by rfl, by simp [Config.link_relpath, h]⟩

/-- Witness for claim C6 at the empty settings map. -/
theorem link_relpath_composes_builddir_witness :
    Config.link_relpath ⟨[("BUILDDIR", "/build/tor")]⟩ "src/lib" =
        some [Directive.searchNative "/build/tor/src/lib"] ∧
      Config.link_relpath ⟨[]⟩ "src/lib" = none :=
  link_relpath_composes_builddir ⟨[]⟩ (by rfl)

/-- Claim C7: when the same key is bound by several well-formed lines, the
loaded map associates it with the value of the last such line. -/
theorem load_duplicate_key_last_wins (lines : List String) (cfg : Config)
    (k v : String) (h : Config.load lines = .ok cfg)
    (hk : lastBinding lines k = some v) :
    cfg.get k = some v := by
  have hg := loadLines_get lines ⟨[]⟩ cfg k h
  rw [hk] at hg
  exact hg

/-- Witness for claim C7: in the file `A=1`, `A=2`, the key `A` ends up bound
to `2`. -/
theorem load_duplicate_key_last_wins_witness :
    Config.get ⟨[("A", "2"), ("A", "1")]⟩ "A" = some "2" :=
  load_duplicate_key_last_wins ["A=1", "A=2"] ⟨[("A", "2"), ("A", "1")]⟩ "A" "2"
    (by rfl) (by rfl)

/-- Claim C8: when the input contains a malformed line (not blank, not a
comment, no equals sign), the whole invocation aborts with the load error and
emits zero directives, for every package name. -/
theorem main_malformed_no_directives (lines : List String) (package : String)
    (h : ∃ s ∈ lines, startsWithStr (trimStr s) "#" = false ∧ trimStr s ≠ "" ∧
      '=' ∉ s.data) :
    main lines package = ([], some (.loadError .invalidData)) := by
  have hl : Config.load lines = .error .invalidData :=
    loadLines_error_of_malformed lines ⟨[]⟩ h
  simp [main, hl]

/-- Witness for claim C8: a single malformed line, dispatched to the
recognized package name. -/
theorem main_malformed_no_directives_witness :
    main ["oops"] "crypto" = ([], some (.loadError .invalidData)) :=
  main_malformed_no_directives ["oops"] "crypto" (by decide)

/-- Claim C9: a line that is empty after trimming, or whose trimmed form
starts with a hash, contributes no map entry and causes no failure: the line
loop simply moves on to the remaining lines. -/
theorem load_ignores_blank_and_comment (s : String) (rest : List String)
    (c : Config) (h : trimStr s = "" ∨ startsWithStr (trimStr s) "#" = true) :
    loadLines (s :: rest) c = loadLines rest c := by
  have hcond : (startsWithStr (trimStr s) "#" || trimStr s == "") = true := by
    rcases h with h | h <;> simp [h]
  simp [loadLines, hcond]

/-- Witness for claim C9 at the comment line `"  # note"`. -/
theorem load_ignores_blank_and_comment_witness :
    loadLines ["  # note", "A=1"] ⟨[]⟩ = loadLines ["A=1"] ⟨[]⟩ :=
  load_ignores_blank_and_comment "  # note" ["A=1"] ⟨[]⟩ (Or.inr (by decide))

/-- Claim C10: a pending state set by a prior standalone `-l` or `-L` makes
the scan consume the next token verbatim, even when that token itself starts
with `-l` or `-L`; in particular the value `"-l -Lfoo"` yields one dependency
directive for the literal name `-Lfoo` and no search-path directive. -/
theorem from_cflags_pending_consumes_verbatim (ent : String) (toks : List String) :
    scanCflags (ent :: toks) true false = .linkLib ent :: scanCflags toks false false ∧
      scanCflags (ent :: toks) false true =
        .searchNative ent :: scanCflags toks false false ∧
      Config.from_cflags ⟨[("LIBS2", "-l -Lfoo")]⟩ "LIBS2" =
        some [.linkLib "-Lfoo"] :=
  ⟨by simp [scanCflags], by simp [scanCflags], by rfl⟩

/-- Witness for claim C10 at the token `"-Lfoo"` with no further tokens. -/
theorem from_cflags_pending_consumes_verbatim_witness :
    scanCflags ["-Lfoo"] true false = [Directive.linkLib "-Lfoo"] ∧
      scanCflags ["-Lfoo"] false true = [Directive.searchNative "-Lfoo"] ∧
      Config.from_cflags ⟨[("LIBS2", "-l -Lfoo")]⟩ "LIBS2" =
        some [Directive.linkLib "-Lfoo"] :=
  from_cflags_pending_consumes_verbatim "-Lfoo" []

end TorBuild
